import Mathlib

/-!
Verification of the aletha-knowledge-base-mcp server's role-classification and
context-assembly layer.

The TypeScript sources are shallowly embedded: pure functions become Lean
functions over `String`/`List Char`; the asynchronous backend (Google Drive),
the format converter and the date formatter are passed in as oracle
parameters; JavaScript `Map`s are represented by their lookup functions
(`String → Option String`), with `Map.set` as function update so that later
writes shadow earlier ones, matching `set` overwrite semantics; thrown
exceptions become `Except String`.

The loaded catalog (`kb-map.md`) and overlay (`kb-guide.md`) sources are
parameters of type `Option String`: `loadKBMap`/`loadKBGuide` return the file
content or `null` when the file is absent or unreadable, and all cache state
(`cachedIndex`, `cachedGuide`) is a pure memo of these inputs, so the
embedding threads the loaded content directly.
-/

namespace Aletha

/-- ASCII whitespace characters recognised by JavaScript's `trim` and by the
`\s` regex class (the catalogs this parser consumes are ASCII markdown, so the
non-ASCII JavaScript whitespace code points are immaterial here). -/
def isJsWS (c : Char) : Bool :=
  c = ' ' || c = '\t' || c = '\n' || c = '\r' || c = '\x0b' || c = '\x0c'

/-- JavaScript `String.prototype.trim` over the character list of a string. -/
def trimL (l : List Char) : List Char :=
  ((l.dropWhile isJsWS).reverse.dropWhile isJsWS).reverse

/-- JavaScript `s.trim()`. -/
def trimS (s : String) : String := ⟨trimL s.data⟩

/-- JavaScript `content.split("\n")`: splits at every newline and keeps empty
segments, so the result is always non-empty. -/
def splitNlL : List Char → List (List Char)
  | [] => [[]]
  | c :: rest =>
    let r := splitNlL rest
    if c = '\n' then [] :: r
    else (c :: r.headD []) :: r.tail

/-- Line list of a string, as strings. -/
def splitNl (s : String) : List String := (splitNlL s.data).map (fun l => ⟨l⟩)

/-- JavaScript `Array.prototype.join(sep)`. -/
def joinWith (sep : String) : List String → String
  | [] => ""
  | [s] => s
  | s :: s2 :: rest => s ++ sep ++ joinWith sep (s2 :: rest)

/-- The backtick character, delimiter of inline-code identifiers. -/
def btick : Char := Char.ofNat 96

/-- The regex `/^## (.+)$/` applied to one line: captures the remainder after
`"## "` when it is non-empty. `parseKBMap` (src/utils/document-roles.ts) and
`parseGuide` (src/utils/kb-guide.ts) both use this pattern and `.trim()` the
capture at the use site. -/
def headerCapture (line : List Char) : Option (List Char) :=
  match line with
  | '#' :: '#' :: ' ' :: rest => if rest = [] then none else some rest
  | _ => none

/-- Attempt to match the regex `id:\s*`([^`]+)`` at the head of the list,
returning the capture group. -/
def idMatchHere (l : List Char) : Option (List Char) :=
  match l with
  | 'i' :: 'd' :: ':' :: rest =>
    let afterWS := rest.dropWhile isJsWS
    match afterWS with
    | c :: rest2 =>
      if c = btick then
        let cap := rest2.takeWhile (fun x => x ≠ btick)
        if cap = [] then none
        else if rest2.drop cap.length = [] then none
        else some cap
      else none
    | [] => none
  | _ => none

/-- Leftmost match of `/id:\s*`([^`]+)`/` in a line (JavaScript
`line.match(...)` semantics: the engine tries a full match at each successive
start position). -/
def idCapture : List Char → Option (List Char)
  | [] => none
  | c :: rest =>
    match idMatchHere (c :: rest) with
    | some cap => some cap
    | none => idCapture rest

/-- Lookup-function representation of a JavaScript `Map<string, string>`:
`set` is function update, so a later write shadows an earlier one. -/
def mapSet (m : String → Option String) (k v : String) : String → Option String :=
  fun x => if x = k then some v else m x

/-- The empty `Map`. -/
def emptyMap : String → Option String := fun _ => none

/-- One iteration of the `parseKBMap` loop (src/utils/document-roles.ts):
state is `(currentCategory, docIdToCategory)`. A section header replaces the
current category (trimmed); otherwise an `id:`-entry binds its identifier to
the current category when that category is non-empty (JavaScript truthiness of
`currentCategory`). -/
def parseKBMapStep (st : String × (String → Option String)) (line : List Char) :
    String × (String → Option String) :=
  match headerCapture line with
  | some cap => (⟨trimL cap⟩, st.2)
  | none =>
    match idCapture line with
    | some cap => if st.1 ≠ "" then (st.1, mapSet st.2 ⟨cap⟩ st.1) else st
    | none => st

/-- Fold of `parseKBMapStep` over the lines of the catalog. -/
def parseKBMapLines (lines : List (List Char)) (st : String × (String → Option String)) :
    String × (String → Option String) :=
  lines.foldl parseKBMapStep st

/-- `parseKBMap` (src/utils/document-roles.ts): builds the docId → category
map from the kb-map markdown, starting with no current category and an empty
map. -/
def parseKBMap (content : String) : String → Option String :=
  (parseKBMapLines (splitNlL content.data) ("", emptyMap)).2

/-- A role-table entry: label plus behavioral instruction. -/
structure RoleInfo where
  label : String
  instruction : String
deriving DecidableEq

/-- The fixed `ROLE_LABELS` table of src/utils/document-roles.ts, mapping
kb-map section headers to role labels. -/
def ROLE_LABELS (category : String) : Option RoleInfo :=
  if category = "Brand & Marketing" then
    some ⟨"MANDATORY CONSTRAINTS",
      "You MUST follow every rule in this document. These are brand standards, not suggestions."⟩
  else if category = "Customer Personas & Journeys" then
    some ⟨"CONTEXT",
      "Use this to understand your audience. Inform tone and framing from these insights."⟩
  else if category = "Clinical & Research" then
    some ⟨"REFERENCE — CITE ACCURATELY",
      "Use exact claims from this document. Never fabricate or paraphrase medical claims."⟩
  else if category = "Topic Articles & Blog Content" then
    some ⟨"REFERENCE ONLY — DO NOT COPY",
      "Use for tone and structure inspiration only. Do not copy verbatim."⟩
  else if category = "Product" then
    some ⟨"SOURCE OF TRUTH",
      "Use exact product names, usage instructions, and capabilities from this document."⟩
  else none

/-- `getIndex` (src/utils/document-roles.ts): the cached docId → category
index. `loadKBMap()` is the `kbMapContent` parameter (`none` when kb-map.md is
absent or unreadable); JavaScript truthiness of `content` means an empty
string also yields an empty map. -/
def getIndex (kbMapContent : Option String) : String → Option String :=
  match kbMapContent with
  | some content => if content ≠ "" then parseKBMap content else emptyMap
  | none => emptyMap

/-- A resolved document role: category plus the table's label and
instruction. -/
structure DocumentRole where
  category : String
  label : String
  instruction : String
deriving DecidableEq

/-- `getDocumentRole` (src/utils/document-roles.ts): look up the category of
`docId` in the index (JavaScript `if (!category) return null`), then the
category's role entry; `null` when either lookup misses. -/
def getDocumentRole (kbMapContent : Option String) (docId : String) : Option DocumentRole :=
  match getIndex kbMapContent docId with
  | none => none
  | some category =>
    if category = "" then none
    else
      match ROLE_LABELS category with
      | none => none
      | some ri => some ⟨category, ri.label, ri.instruction⟩

/-- ASCII lowering of one character; `parseGuide` compares the section name
against "global" with JavaScript `toLowerCase()`, and section names are ASCII
markdown headers. -/
def lowerC (c : Char) : Char :=
  if 'A' ≤ c ∧ c ≤ 'Z' then Char.ofNat (c.toNat + 32) else c

/-- ASCII `s.toLowerCase()`. -/
def lowerS (s : String) : String := ⟨s.data.map lowerC⟩

/-- `ParsedGuide` (src/utils/kb-guide.ts): one global block plus a category →
block `Map`, the latter represented by its lookup function. -/
structure ParsedGuide where
  global : String
  categories : String → Option String

/-- `flushSection` (src/utils/kb-guide.ts): joins and trims the accumulated
body lines; an empty text is dropped, a section named "global"
(case-insensitively) replaces the global slot, any other non-empty section
name becomes a category key (overwriting an earlier section of the same
name). -/
def flushSection (sec : String) (cur : List String) (g : ParsedGuide) : ParsedGuide :=
  let text := trimS (joinWith "\n" cur)
  if text = "" then g
  else if lowerS sec = "global" then { g with global := text }
  else if sec ≠ "" then { g with categories := mapSet g.categories sec text }
  else g

/-- The line loop of `parseGuide` (src/utils/kb-guide.ts): a `## ` header
flushes the previous section and starts a new one (trimmed name, empty body);
a top-level `# ` title line is skipped; any other line is appended to the
current body; the last section is flushed at the end. -/
def parseGuideLoop : List (List Char) → String → List String → ParsedGuide → ParsedGuide
  | [], sec, cur, g => flushSection sec cur g
  | l :: ls, sec, cur, g =>
    match headerCapture l with
    | some cap => parseGuideLoop ls ⟨trimL cap⟩ [] (flushSection sec cur g)
    | none =>
      match l with
      | '#' :: ' ' :: _ => parseGuideLoop ls sec cur g
      | _ => parseGuideLoop ls sec (cur ++ [⟨l⟩]) g

/-- `parseGuide` (src/utils/kb-guide.ts). -/
def parseGuide (content : String) : ParsedGuide :=
  parseGuideLoop (splitNlL content.data) "" [] ⟨"", emptyMap⟩

/-- `getGuide` (src/utils/kb-guide.ts): `loadKBGuide()` is the
`guideContent` parameter; `null` or an empty string (JavaScript
`if (!content) return null`) yields no guide. -/
def getGuide (guideContent : Option String) : Option ParsedGuide :=
  match guideContent with
  | some content => if content ≠ "" then some (parseGuide content) else none
  | none => none

/-- The category block `getCorrectionsForDoc` selects for a document: the
code's condition `category && guide.categories.has(category)` where
`category` is `getDocumentRole(docId)?.category`; returns the category name
and its block. -/
def selectedCategoryBlock (guide : ParsedGuide) (kbMapContent : Option String)
    (docId : String) : Option (String × String) :=
  match (getDocumentRole kbMapContent docId).map DocumentRole.category with
  | some c =>
    if c ≠ "" then
      match guide.categories c with
      | some t => some (c, t)
      | none => none
    else none
  | none => none

/-- `getCorrectionsForDoc` (src/utils/kb-guide.ts): global corrections plus
the document's category-specific corrections, each labeled, joined by a blank
line; `null` when neither part exists. -/
def getCorrectionsForDoc (guideContent kbMapContent : Option String) (docId : String) :
    Option String :=
  match getGuide guideContent with
  | none => none
  | some guide =>
    let parts : List String :=
      (if guide.global ≠ "" then ["**Corrections (Global):**\n" ++ guide.global] else []) ++
      (match selectedCategoryBlock guide kbMapContent docId with
       | some ct => ["**Corrections (" ++ ct.1 ++ "):**\n" ++ ct.2]
       | none => [])
    if parts = [] then none else some (joinWith "\n\n" parts)

/-- `getMimeTypeDescription` (src/utils/file-converter.ts): human-readable
file-type names, falling back to the raw MIME type. -/
def getMimeTypeDescription (mimeType : String) : String :=
  if mimeType = "application/vnd.google-apps.document" then "Google Doc"
  else if mimeType = "application/vnd.google-apps.spreadsheet" then "Google Sheet"
  else if mimeType = "application/vnd.google-apps.presentation" then "Google Slides"
  else if mimeType = "application/vnd.google-apps.folder" then "Folder"
  else if mimeType = "application/pdf" then "PDF"
  else if mimeType = "application/msword" then "Word Document"
  else if mimeType = "application/vnd.openxmlformats-officedocument.wordprocessingml.document" then "Word Document"
  else if mimeType = "application/vnd.ms-excel" then "Excel Spreadsheet"
  else if mimeType = "application/vnd.openxmlformats-officedocument.spreadsheetml.sheet" then "Excel Spreadsheet"
  else if mimeType = "application/vnd.ms-powerpoint" then "PowerPoint"
  else if mimeType = "application/vnd.openxmlformats-officedocument.presentationml.presentation" then "PowerPoint"
  else if mimeType = "text/plain" then "Text File"
  else if mimeType = "text/markdown" then "Markdown"
  else if mimeType = "text/html" then "HTML"
  else mimeType

/-- The Google Drive folder MIME type. -/
def folderMime : String := "application/vnd.google-apps.folder"

/-- Raw file metadata (`drive_v3.Schema$File`) as returned by
`getFileMetadata`: every field may be absent, and JavaScript truthiness also
treats the empty string as missing. -/
structure RawMeta where
  id : Option String
  name : Option String
  mimeType : Option String
  createdTime : Option String
  modifiedTime : Option String
  size : Option String
  webViewLink : Option String
  lastModifyingUserDisplayName : Option String
deriving DecidableEq

/-- JavaScript falsiness of an optional string field (`undefined` or `""`). -/
def blank : Option String → Bool
  | none => true
  | some s => s = ""

/-- Metadata block of a `ReadDocResult` (src/tools/read-doc.ts). -/
structure DocMetadata where
  createdTime : String
  modifiedTime : String
  lastModifyingUser : Option String
  size : Option String
  webViewLink : String
deriving DecidableEq

/-- `ReadDocResult` (src/tools/read-doc.ts). -/
structure ReadDocResult where
  id : String
  name : String
  mimeType : String
  fileType : String
  content : String
  metadata : DocMetadata
deriving DecidableEq

/-- The backend collaborators `readDoc` suspends on, as oracles:
`getMeta` is `getFileMetadata`, `getContent` is `getFileContent` (its string
result standing for the fetched bytes), `convert` is
`convertToFormat(content, mimeType, format)`; a thrown error is its rendered
message string. -/
structure DriveBackend where
  getMeta : String → Except String RawMeta
  getContent : String → String → Except String String
  convert : String → String → String → Except String String

/-- `readDoc` (src/tools/read-doc.ts), instrumented with the list of backend
calls it issues (one entry per `getFileMetadata`/`getFileContent` call, in
order). The two precondition errors are raised before any backend call; a
folder target is rejected after the metadata fetch; a content-fetch error is
wrapped as `Failed to read document content: …`. -/
def readDocT (b : DriveBackend) (defaultFormat : String) (doc_id : String)
    (fmt : Option String) : Except String ReadDocResult × List String :=
  let format := fmt.getD defaultFormat
  if doc_id = "" ∨ trimS doc_id = "" then
    (.error "Document ID is required", [])
  else
    match b.getMeta doc_id with
    | .error e => (.error e, ["metadata:" ++ doc_id])
    | .ok meta =>
      if blank meta.id || blank meta.name || blank meta.mimeType then
        (.error "Failed to retrieve document metadata", ["metadata:" ++ doc_id])
      else
        let name := meta.name.getD ""
        let mime := meta.mimeType.getD ""
        if mime = folderMime then
          (.error ("\"" ++ name ++ "\" is a folder, not a document. Use list_folder to browse its contents."),
           ["metadata:" ++ doc_id])
        else
          match b.getContent doc_id mime with
          | .error e =>
            (.error ("Failed to read document content: " ++ e),
             ["metadata:" ++ doc_id, "content:" ++ doc_id])
          | .ok raw =>
            match b.convert raw mime format with
            | .error e => (.error e, ["metadata:" ++ doc_id, "content:" ++ doc_id])
            | .ok content =>
              (.ok
                { id := meta.id.getD "", name := name, mimeType := mime,
                  fileType := getMimeTypeDescription mime, content := content,
                  metadata :=
                    { createdTime := meta.createdTime.getD "",
                      modifiedTime := meta.modifiedTime.getD "",
                      lastModifyingUser :=
                        match meta.lastModifyingUserDisplayName with
                        | some d => if d ≠ "" then some d else none
                        | none => none,
                      size :=
                        match meta.size with
                        | some s => if s ≠ "" then some s else none
                        | none => none,
                      webViewLink := meta.webViewLink.getD "" } },
               ["metadata:" ++ doc_id, "content:" ++ doc_id])

/-- `readDoc` without the instrumentation. -/
def readDoc (b : DriveBackend) (defaultFormat : String) (doc_id : String)
    (fmt : Option String) : Except String ReadDocResult :=
  (readDocT b defaultFormat doc_id fmt).1

/-- `formatDocContent` (src/tools/read-doc.ts): role heading (label in square
brackets, block-quoted instruction) or plain heading, metadata lines, a
separator, then the rendered content verbatim. `toLocale` is
`new Date(…).toLocaleString()`. -/
def formatDocContent (toLocale : String → String) (r : ReadDocResult)
    (role : Option DocumentRole) : String :=
  let lines : List String :=
    (match role with
     | some ro => ["# [" ++ ro.label ++ "] " ++ r.name, "", "> **" ++ ro.instruction ++ "**"]
     | none => ["# " ++ r.name]) ++
    ["", "**Type:** " ++ r.fileType,
     "**Last Modified:** " ++ toLocale r.metadata.modifiedTime] ++
    (match r.metadata.lastModifyingUser with
     | some u => if u ≠ "" then ["**Modified By:** " ++ u] else []
     | none => []) ++
    ["**[Open in Drive](" ++ r.metadata.webViewLink ++ ")**", "", "---", "", r.content]
  joinWith "\n" lines

/-- One entry of the `errors` report of `readDocs` (src/tools/read-docs.ts). -/
structure DocError where
  doc_id : String
  error : String
deriving DecidableEq

/-- `ReadDocsResult` (src/tools/read-docs.ts). -/
structure ReadDocsResult where
  documents : List ReadDocResult
  errors : List DocError
deriving DecidableEq

/-- The `results.forEach` aggregation of `readDocs` (src/tools/read-docs.ts):
each settled per-document promise lands in `documents` (fulfilled) or in
`errors` with its requested id and the rejection's message string, preserving
request order on both sides. `fetch` is the per-id outcome of
`readDoc(drive, config, { doc_id, format })`. -/
def readDocsAgg (fetch : String → Except String ReadDocResult) :
    List String → ReadDocsResult
  | [] => ⟨[], []⟩
  | i :: rest =>
    let r := readDocsAgg fetch rest
    match fetch i with
    | .ok d => ⟨d :: r.documents, r.errors⟩
    | .error e => ⟨r.documents, ⟨i, e⟩ :: r.errors⟩

/-- `readDocs` (src/tools/read-docs.ts), instrumented with the list of ids
for which a per-document fetch was issued: the two structural precondition
checks throw before `Promise.allSettled` fans out, so their trace is empty. -/
def readDocsT (fetch : String → Except String ReadDocResult) (doc_ids : List String) :
    Except String ReadDocsResult × List String :=
  if doc_ids = [] then
    (.error "At least one document ID is required", [])
  else if doc_ids.length > 10 then
    (.error "Maximum 10 documents per request to avoid overloading context", [])
  else
    (.ok (readDocsAgg fetch doc_ids), doc_ids)

/-- `readDocs` without the instrumentation. -/
def readDocs (fetch : String → Except String ReadDocResult) (doc_ids : List String) :
    Except String ReadDocsResult :=
  (readDocsT fetch doc_ids).1

/-- `CRITICAL_MARKETING_DOCS` (src/index.ts): the fixed critical-document ids
pre-loaded into the marketing prompts. -/
def CRITICAL_MARKETING_DOCS : List String :=
  ["1LZ-4x4ZPdTthGGf8RV67Mt68wXUsUj_4",
   "1Wi_ol-uuYkHLJm9ieaHiMFzDFUW5weuP",
   "1LwOyI8-rIBQMrRDZ4mKcStNdJWb6fx2n"]

/-- The `results.forEach` aggregation of `preloadDocs` (src/index.ts):
fulfilled fetches are formatted with their resolved role (looked up by the
returned document's id), failures contribute the requested id to `failed`. -/
def preloadAgg (toLocale : String → String) (kbMapContent : Option String)
    (fetch : String → Except String ReadDocResult) :
    List String → List String × List String
  | [] => ([], [])
  | i :: rest =>
    let r := preloadAgg toLocale kbMapContent fetch rest
    match fetch i with
    | .ok d => (formatDocContent toLocale d (getDocumentRole kbMapContent d.id) :: r.1, r.2)
    | .error _ => (r.1, i :: r.2)

/-- `preloadDocs` (src/index.ts): `drive` models `getDriveClient()`, whose
failure is caught by the surrounding `try`/`catch` and degrades to empty
content with every id failed; otherwise the per-id fetches
(`readDoc(drive, config, { doc_id: id, format: "markdown" })`) are settled
independently and the formatted sections joined with `\n\n---\n\n`. -/
def preloadDocs (toLocale : String → String) (kbMapContent : Option String)
    (drive : Except String (String → Except String ReadDocResult))
    (docIds : List String) : String × List String :=
  match drive with
  | .error _ => ("", docIds)
  | .ok fetch =>
    let sr := preloadAgg toLocale kbMapContent fetch docIds
    (joinWith "\n\n---\n\n" sr.1, sr.2)

/-- The `failedNote` of the marketing-agent prompt handler (src/index.ts). -/
def marketingFailedNote (failed : List String) : String :=
  if failed.length > 0 then
    "\n\n> **Note:** " ++ toString failed.length ++
    " document(s) could not be pre-loaded. Use `read_doc` with these IDs to load them manually: " ++
    joinWith ", " (failed.map (fun i => "`" ++ i ++ "`")) ++ "\n"
  else ""

/-- The fallback `preloadedSection` of the marketing-agent prompt handler
(src/index.ts), used when the pre-loaded content string is empty. -/
def marketingFallbackSection : String :=
  "## Load Brand Guidelines\n\nPre-loading failed. Use `get_kb_map` to see available documents, then load these with `read_doc`:\n1. **Brand Positioning** — core brand voice and differentiators\n2. **Writing Guidelines** — tone, style, and copy standards\n3. **Quick Claims Reference** — approved product/health claims\n"

/-- The `preloadedSection` of the marketing-agent prompt handler
(src/index.ts): JavaScript truthiness of `preloaded` selects the pre-loaded
rendering or the fallback. -/
def marketingPreloadedSection (preloaded : String) (failed : List String) : String :=
  if preloaded ≠ "" then
    "## Pre-loaded Brand Guidelines\n\nThe following documents have been loaded automatically. Each is labeled with its role — follow the instruction on each label.\n\n" ++
    preloaded ++ "\n\n---\n" ++ marketingFailedNote failed
  else marketingFallbackSection

/-- Segment of the marketing-agent template literal before
`${preloadedSection}` (src/index.ts). -/
def marketingTextA : String :=
  "## Marketing Creation Agent\n\nThis agent creates marketing content for Aletha Health. The essential brand guidelines have been pre-loaded below — follow them in all output.\n\n"

/-- Segment of the marketing-agent template literal between
`${preloadedSection}` and `${task}` (src/index.ts). -/
def marketingTextB : String :=
  "\n\n## Loading Additional Context\n\nIf your task requires more context, use `get_kb_map` to see what's available, then `read_doc` to load specific documents. Common additions:\n- **Scroll-Stoppers & Messaging Ideas** — for ads, social posts, or email subject lines\n- **Customer Personas** — when targeting a specific audience segment\n\nDo NOT use web search or external sources — all content comes from the Aletha knowledge base.\n\n## Scope Boundaries\n\n**Include:** Brand guidelines, writing guidelines, approved marketing claims, customer personas/journeys\n**Exclude:** Clinical white papers, product manuals, finance documents, web searches (unless explicitly requested)\n\n## What This Agent Does\n\n- Follows brand voice and writing style rules from the pre-loaded guidelines\n- Uses only approved claims from the Quick Claims Reference\n- Matches tone and terminology to Aletha standards\n- Delivers draft content for human review and iteration\n\n## Process\n\n1. Read the pre-loaded guidelines above carefully\n2. Load additional documents if the task requires them\n3. Create the requested content following all brand constraints\n4. Run the compliance check below before delivering\n\n## Before Delivering Output\n\nReview your output against the pre-loaded guidelines and confirm each item:\n\n1. All product/health claims appear in the Quick Claims Reference\n2. Tone matches Writing Guidelines (no banned words, correct voice)\n3. Product names are exact: **Hip Hook Mark**, **Range**, **Orbit**, **Band**\n4. No fabricated clinical claims — every medical statement is from a loaded document\n5. Brand positioning and differentiators are consistent with Brand Positioning doc\n\nFlag any deviations you cannot resolve. Include this checklist (pass/fail per item) at the end of your response.\n\n## Current Task\n"

/-- Segment of the marketing-agent template literal after `${task}`
(src/index.ts). -/
def marketingTextC : String :=
  "\n\n---\n**REMINDERS — Do not ignore these:**\n- Use ONLY claims from the Quick Claims Reference — no inventing benefits\n- Product names exactly: Hip Hook Mark, Range, Orbit, Band\n- No superlatives (\"best\", \"revolutionary\", \"groundbreaking\") unless in approved claims\n- Medical disclaimer required on all health content"

/-- The task argument default of the marketing-agent handler (src/index.ts):
JavaScript truthiness of `args?.task || "create marketing content"`. -/
def taskOrDefault (task : Option String) : String :=
  match task with
  | some t => if t ≠ "" then t else "create marketing content"
  | none => "create marketing content"

/-- The marketing-agent `GetPromptRequestSchema` handler's message text
(src/index.ts): the critical docs are pre-loaded and the template literal is
assembled around the resulting section. The handler is a total function of
the preload outcome: it never rethrows a preload failure. -/
def marketingAgentText (toLocale : String → String) (kbMapContent : Option String)
    (drive : Except String (String → Except String ReadDocResult))
    (task : Option String) : String :=
  let pr := preloadDocs toLocale kbMapContent drive CRITICAL_MARKETING_DOCS
  marketingTextA ++ marketingPreloadedSection pr.1 pr.2 ++ marketingTextB ++
    taskOrDefault task ++ marketingTextC

/-- The apostrophe character, quoted in Drive query strings. -/
def quoteChar : Char := Char.ofNat 39

/-- JavaScript `query.replace(/'/g, "\\'")`. -/
def escapeQuotes (s : String) : String :=
  ⟨s.data.foldr (fun c acc => if c = quoteChar then '\\' :: c :: acc else c :: acc) []⟩

/-- `MIME_TYPE_FILTERS` (src/google/drive.ts). -/
def MIME_TYPE_FILTERS (fileType : String) : Option (List String) :=
  if fileType = "document" then
    some ["application/vnd.google-apps.document", "application/msword",
          "application/vnd.openxmlformats-officedocument.wordprocessingml.document"]
  else if fileType = "spreadsheet" then
    some ["application/vnd.google-apps.spreadsheet", "application/vnd.ms-excel",
          "application/vnd.openxmlformats-officedocument.spreadsheetml.sheet"]
  else if fileType = "presentation" then
    some ["application/vnd.google-apps.presentation", "application/vnd.ms-powerpoint",
          "application/vnd.openxmlformats-officedocument.presentationml.presentation"]
  else if fileType = "pdf" then some ["application/pdf"]
  else none

/-- The Drive query string built by `searchFiles` (src/google/drive.ts):
full-text clause, optional MIME-type clause, `trashed = false`; the folder id
is computed but never added to the query (the source notes this). -/
def buildSearchQuery (query : String) (fileType : Option String) : String :=
  let mimeClause : List String :=
    match fileType with
    | some ft =>
      if ft ≠ "all" then
        match MIME_TYPE_FILTERS ft with
        | some mimeTypes =>
          ["(" ++ joinWith " or " (mimeTypes.map (fun m => "mimeType='" ++ m ++ "'")) ++ ")"]
        | none => []
      else []
    | none => []
  joinWith " and "
    (["fullText contains '" ++ escapeQuotes query ++ "'"] ++ mimeClause ++ ["trashed = false"])

/-- One file of the `drive.files.list` response, with the fields `searchFiles`
requests; the optional ones go through `|| ""` / `|| undefined`. -/
structure DriveFile where
  id : String
  name : String
  mimeType : String
  modifiedTime : String
  webViewLink : Option String
  size : Option String
  parents : List String
deriving DecidableEq

/-- `SearchResult` (src/google/drive.ts). -/
structure SearchResult where
  id : String
  name : String
  mimeType : String
  modifiedTime : String
  path : String
  webViewLink : String
  size : Option String
deriving DecidableEq

/-- `searchFiles` (src/google/drive.ts): builds the query, asks the backend
for at most `pageSize = maxResults` files and maps each to a `SearchResult`.
`listF` is the `drive.files.list` call (query and pageSize determine the
response files), `getPath` is `getFilePath(drive, id, parents?.[0])`. The
`maxResults = config.defaults.maxSearchResults` destructuring default applies
only when the option is absent. -/
def searchFiles (getPath : String → Option String → String)
    (listF : String → Int → List DriveFile) (defaultMax : Int)
    (query : String) (fileType : Option String) (maxResults : Option Int) :
    List SearchResult :=
  let mr := maxResults.getD defaultMax
  let q := buildSearchQuery query fileType
  let files := listF q mr
  files.map (fun f =>
    { id := f.id, name := f.name, mimeType := f.mimeType,
      modifiedTime := f.modifiedTime, path := getPath f.id f.parents.head?,
      webViewLink := f.webViewLink.getD "",
      size :=
        match f.size with
        | some s => if s ≠ "" then some s else none
        | none => none })

/-- `SearchDocsArgs` (src/tools/search-docs.ts). -/
structure SearchDocsArgs where
  query : String
  file_type : Option String
  folder_id : Option String
  max_results : Option Int
deriving DecidableEq

/-- One row of a `SearchDocsResult` (src/tools/search-docs.ts). -/
structure SearchDocsRow where
  id : String
  name : String
  type : String
  mimeType : String
  modifiedTime : String
  path : String
  webViewLink : String
deriving DecidableEq

/-- `SearchDocsResult` (src/tools/search-docs.ts). -/
structure SearchDocsResult where
  results : List SearchDocsRow
  totalResults : Nat
  query : String
deriving DecidableEq

/-- The `maxResults` value `searchDocs` passes to `searchFiles`
(src/tools/search-docs.ts): `max_results || config.defaults.maxSearchResults`
— JavaScript `||`, so `0` also falls back to the default. No clamping to the
documented maximum of 50 happens anywhere on this path. -/
def searchDocsMaxResults (defaultMax : Int) (args : SearchDocsArgs) : Int :=
  match args.max_results with
  | some n => if n ≠ 0 then n else defaultMax
  | none => defaultMax

/-- `searchDocs` (src/tools/search-docs.ts): validates the query, delegates
to `searchFiles` and re-shapes the rows. -/
def searchDocs (getPath : String → Option String → String)
    (listF : String → Int → List DriveFile) (defaultMax : Int)
    (args : SearchDocsArgs) : Except String SearchDocsResult :=
  if args.query = "" ∨ trimS args.query = "" then .error "Search query is required"
  else
    let results := searchFiles getPath listF defaultMax args.query args.file_type
      (some (searchDocsMaxResults defaultMax args))
    .ok
      { results := results.map (fun r =>
          { id := r.id, name := r.name, type := getMimeTypeDescription r.mimeType,
            mimeType := r.mimeType, modifiedTime := r.modifiedTime, path := r.path,
            webViewLink := r.webViewLink }),
        totalResults := results.length,
        query := args.query }

/-- Re-parser for the visible role label of a formatted block: the heading
emitted by `formatDocContent` opens with `# [`, and the label is read back as
the characters up to the first `]`. The source has no label re-parser; this
is the natural reading of the spec's round-trip property over the emitted
heading. `isRB`/`notRB` test for the closing bracket. -/
def isRB (c : Char) : Bool := c = ']'

def notRB (c : Char) : Bool := c ≠ ']'

def extractLabel (s : String) : Option String :=
  match s.data with
  | '#' :: ' ' :: '[' :: rest =>
    if rest.any isRB then some ⟨rest.takeWhile notRB⟩
    else none
  | _ => none

/-- Concrete document metadata used by the witness instantiations. -/
def docMetaW : DocMetadata :=
  ⟨"2024-01-01T00:00:00Z", "2024-01-02T00:00:00Z", some "Ann", none, "https://drive.example/w"⟩

/-- Concrete fetched document used by the witness instantiations. -/
def docW : ReadDocResult :=
  ⟨"a", "Doc A", "text/plain", "Text File", "Hello", docMetaW⟩

/-- Concrete per-document fetch oracle: id "b" fails, everything else
succeeds. -/
def fetchW : String → Except String ReadDocResult :=
  fun i => if i = "b" then .error "File not found" else .ok docW

/-! Aggregation lemmas for the batch layer. -/

theorem readDocsAgg_documents (fetch : String → Except String ReadDocResult)
    (l : List String) :
    (readDocsAgg fetch l).documents = l.filterMap (fun i => (fetch i).toOption) := by
  induction l with
  | nil => rfl
  | cons i rest ih =>
    simp only [readDocsAgg, List.filterMap_cons]
    cases h : fetch i with
    | ok d => simp [h, ih, Except.toOption]
    | error e => simp [h, ih, Except.toOption]

theorem readDocsAgg_errors (fetch : String → Except String ReadDocResult)
    (l : List String) :
    (readDocsAgg fetch l).errors = l.filterMap (fun i =>
      match fetch i with
      | .error e => some ⟨i, e⟩
      | .ok _ => none) := by
  induction l with
  | nil => rfl
  | cons i rest ih =>
    simp only [readDocsAgg, List.filterMap_cons]
    cases h : fetch i with
    | ok d => simp [h, ih]
    | error e => simp [h, ih]

theorem readDocsAgg_length (fetch : String → Except String ReadDocResult)
    (l : List String) :
    (readDocsAgg fetch l).documents.length + (readDocsAgg fetch l).errors.length
      = l.length := by
  induction l with
  | nil => rfl
  | cons i rest ih =>
    simp only [readDocsAgg]
    cases h : fetch i with
    | ok d => simp only [h, List.length_cons]; omega
    | error e => simp only [h, List.length_cons]; omega

theorem readDocsAgg_mem_errors (fetch : String → Except String ReadDocResult)
    (l : List String) (i e : String) (hf : fetch i = .error e) (hm : i ∈ l) :
    DocError.mk i e ∈ (readDocsAgg fetch l).errors := by
  induction l with
  | nil => cases hm
  | cons j rest ih =>
    simp only [readDocsAgg]
    rcases List.mem_cons.mp hm with h | h
    · subst h
      simp [hf]
    · cases hj : fetch j with
      | ok d => simpa [hj] using ih h
      | error e2 => simp [hj, ih h]

/-- C1: for every input list of 1 to 10 document ids, `readDocs` succeeds and
its result partitions the request: the fulfilled documents are exactly the
successfully fetched requests in original request order, the error entries
exactly the failing requests in order (each carrying its requested id), and
the two sides' lengths sum to the request length, so every requested id is
accounted for by exactly one side, never both and never neither. -/
theorem readDocs_partitions_request (fetch : String → Except String ReadDocResult)
    (doc_ids : List String) (h1 : 1 ≤ doc_ids.length) (h2 : doc_ids.length ≤ 10) :
    ∃ r, readDocs fetch doc_ids = .ok r ∧
      r.documents = doc_ids.filterMap (fun i => (fetch i).toOption) ∧
      r.errors = doc_ids.filterMap (fun i =>
        match fetch i with
        | .error e => some ⟨i, e⟩
        | .ok _ => none) ∧
      r.documents.length + r.errors.length = doc_ids.length := by
  have hne : ¬ doc_ids = [] := by
    intro h; subst h; simp at h1
  have hle : ¬ doc_ids.length > 10 := by omega
  refine ⟨readDocsAgg fetch doc_ids, ?_, ?_, ?_, ?_⟩
  · simp [readDocs, readDocsT, hne, hle]
  · exact readDocsAgg_documents fetch doc_ids
  · exact readDocsAgg_errors fetch doc_ids
  · exact readDocsAgg_length fetch doc_ids

/-- Witness for C1 at a concrete three-element request against `fetchW`. -/
theorem readDocs_partitions_request_witness :
    ∃ r, readDocs fetchW ["a", "b", "c"] = .ok r ∧
      r.documents = (["a", "b", "c"] : List String).filterMap
        (fun i => (fetchW i).toOption) ∧
      r.errors = (["a", "b", "c"] : List String).filterMap (fun i =>
        match fetchW i with
        | .error e => some ⟨i, e⟩
        | .ok _ => none) ∧
      r.documents.length + r.errors.length = (["a", "b", "c"] : List String).length :=
  readDocs_partitions_request fetchW ["a", "b", "c"] (by decide) (by decide)

/-- C2: `readDocs` raises an error exactly when the request list is empty or
longer than 10; in that case no per-document fetch has been issued (empty
trace); and for an admissible list a per-document fetch failure is recorded
in the errors report with the triggering error's message instead of being
thrown past the batch boundary. -/
theorem readDocs_precondition_errors (fetch : String → Except String ReadDocResult)
    (doc_ids : List String) :
    ((∃ e, (readDocsT fetch doc_ids).1 = .error e) ↔
      doc_ids = [] ∨ doc_ids.length > 10) ∧
    (doc_ids = [] ∨ doc_ids.length > 10 → (readDocsT fetch doc_ids).2 = []) ∧
    (∀ i e, fetch i = .error e → i ∈ doc_ids → ¬ doc_ids.length > 10 →
      ∃ r, (readDocsT fetch doc_ids).1 = .ok r ∧ DocError.mk i e ∈ r.errors) := by
  refine ⟨⟨?_, ?_⟩, ?_, ?_⟩
  · rintro ⟨e, he⟩
    by_contra hcon
    push_neg at hcon
    have hgt : ¬ doc_ids.length > 10 := by omega
    simp [readDocsT, hcon.1, hgt] at he
  · rintro (h | h)
    · exact ⟨"At least one document ID is required", by simp [readDocsT, h]⟩
    · refine ⟨"Maximum 10 documents per request to avoid overloading context", ?_⟩
      have hne : ¬ doc_ids = [] := by
        intro hnil; subst hnil; simp at h
      simp [readDocsT, hne, h]
  · rintro (h | h)
    · simp [readDocsT, h]
    · by_cases hnil : doc_ids = []
      · simp [readDocsT, hnil]
      · simp [readDocsT, hnil, h]
  · intro i e hf hm hle
    have hne : ¬ doc_ids = [] := by
      intro hnil; subst hnil; cases hm
    refine ⟨readDocsAgg fetch doc_ids, by simp [readDocsT, hne, hle], ?_⟩
    exact readDocsAgg_mem_errors fetch doc_ids i e hf hm

/-- Witness for C2: at the concrete request `["a", "b"]` against `fetchW`,
the failing id "b" is recorded in the errors report with its message. -/
theorem readDocs_precondition_errors_witness :
    ∃ r, (readDocsT fetchW ["a", "b"]).1 = .ok r ∧
      DocError.mk "b" "File not found" ∈ r.errors :=
  (readDocs_precondition_errors fetchW ["a", "b"]).2.2 "b" "File not found"
    rfl (by decide) (by decide)

/-- C3: `getDocumentRole` returns null for every id the catalog does not
bind, for every id whose category has no entry in the fixed role table, and
— when the catalog source is absent — for every id whatsoever. The embedding
is a total function, so no exception can escape. -/
theorem getDocumentRole_null_cases (kbMapContent : Option String) (docId : String) :
    (getIndex kbMapContent docId = none → getDocumentRole kbMapContent docId = none) ∧
    (∀ cat, getIndex kbMapContent docId = some cat → ROLE_LABELS cat = none →
      getDocumentRole kbMapContent docId = none) ∧
    (kbMapContent = none → getDocumentRole kbMapContent docId = none) := by
  refine ⟨?_, ?_, ?_⟩
  · intro h
    simp [getDocumentRole, h]
  · intro cat h hr
    by_cases hc : cat = "" <;> simp [getDocumentRole, h, hr, hc]
  · intro h
    subst h
    simp [getDocumentRole, getIndex, emptyMap]

/-- Witness for C3: an absent catalog resolves no role, and a catalogued
document in a category outside the role table resolves no role either. -/
theorem getDocumentRole_null_cases_witness :
    getDocumentRole none "X" = none ∧
    getDocumentRole (some "## Finance\n- **Budget** (id: `D1`, doc)") "D1" = none :=
  ⟨(getDocumentRole_null_cases none "X").2.2 rfl,
   (getDocumentRole_null_cases (some "## Finance\n- **Budget** (id: `D1`, doc)") "D1").2.1
     "Finance" (by decide) (by decide)⟩

theorem parseKBMapStep_no_header (m : String → Option String) (l : List Char)
    (h : headerCapture l = none) : parseKBMapStep ("", m) l = ("", m) := by
  simp only [parseKBMapStep, h]
  cases hcap : idCapture l <;> simp

theorem parseKBMapLines_no_header (pre : List (List Char)) (m : String → Option String)
    (h : ∀ l ∈ pre, headerCapture l = none) :
    parseKBMapLines pre ("", m) = ("", m) := by
  induction pre with
  | nil => rfl
  | cons l ls ih =>
    have hl : headerCapture l = none := h l (List.mem_cons_self l ls)
    have hrest : ∀ x ∈ ls, headerCapture x = none :=
      fun x hx => h x (List.mem_cons_of_mem l hx)
    show List.foldl parseKBMapStep (parseKBMapStep ("", m) l) ls = ("", m)
    rw [parseKBMapStep_no_header m l hl]
    exact ih hrest

/-- C7: catalog parsing binds identifiers to the most recent section header:
(i) a prefix with no header contributes nothing (ids before any header are
ignored); (ii) whatever came before, a later header followed by an entry
re-binds that entry's identifier to the later header's category (last write
wins); (iii) the concrete scenario: `## Brand & Marketing` followed by an
entry with id `X` resolves category "Brand & Marketing" and role label
"MANDATORY CONSTRAINTS". -/
theorem parseKBMap_binding_rules (pre rest prior : List (List Char))
    (hdr entry : List Char) (capB capD : List Char) :
    ((∀ l ∈ pre, headerCapture l = none) →
      ∀ x, (parseKBMapLines (pre ++ rest) ("", emptyMap)).2 x
          = (parseKBMapLines rest ("", emptyMap)).2 x) ∧
    (headerCapture hdr = some capB → (⟨trimL capB⟩ : String) ≠ "" →
      headerCapture entry = none → idCapture entry = some capD →
      (parseKBMapLines (prior ++ [hdr, entry]) ("", emptyMap)).2 ⟨capD⟩
        = some ⟨trimL capB⟩) ∧
    (parseKBMap "## Brand & Marketing\n- **Doc Name** (id: `X`, doc)" "X"
        = some "Brand & Marketing" ∧
     (getDocumentRole (some "## Brand & Marketing\n- **Doc Name** (id: `X`, doc)") "X").map
        DocumentRole.label = some "MANDATORY CONSTRAINTS") := by
  refine ⟨?_, ?_, by decide, by decide⟩
  · intro h x
    show (List.foldl parseKBMapStep ("", emptyMap) (pre ++ rest)).2 x = _
    rw [List.foldl_append]
    have hpre : List.foldl parseKBMapStep ("", emptyMap) pre = ("", emptyMap) :=
      parseKBMapLines_no_header pre emptyMap h
    rw [hpre]
    rfl
  · intro hb htrim hent hid
    show (List.foldl parseKBMapStep ("", emptyMap) (prior ++ [hdr, entry])).2 ⟨capD⟩ = _
    rw [List.foldl_append]
    set S := List.foldl parseKBMapStep ("", emptyMap) prior with hS
    show (parseKBMapStep (parseKBMapStep S hdr) entry).2 ⟨capD⟩ = _
    have h1 : parseKBMapStep S hdr = (⟨trimL capB⟩, S.2) := by
      simp [parseKBMapStep, hb]
    rw [h1]
    simp [parseKBMapStep, hent, hid, htrim, mapSet]

/-- Witness for C7: a stray pre-header entry binds nothing, and a two-line
suffix `## B` / entry `Z` binds `Z` to "B" regardless of the empty prior
content. -/
theorem parseKBMap_binding_rules_witness :
    ((parseKBMapLines (["- stray (id: `E`, doc)".data] ++ []) ("", emptyMap)).2 "E"
       = (parseKBMapLines [] ("", emptyMap)).2 "E") ∧
    (parseKBMapLines ([] ++ ["## B".data, "- x (id: `Z`, doc)".data]) ("", emptyMap)).2 "Z"
       = some "B" := by
  constructor
  · exact (parseKBMap_binding_rules ["- stray (id: `E`, doc)".data] [] []
      [] [] [] []).1 (by decide) "E"
  · have h := (parseKBMap_binding_rules [] [] [] "## B".data "- x (id: `Z`, doc)".data
      "B".data "Z".data).2.1 (by decide) (by decide) (by decide) (by decide)
    exact h

/-! Case characterization of `getCorrectionsForDoc`. -/

theorem corrections_both (gc : String) (kbm : Option String) (docId c t : String)
    (hgc : gc ≠ "") (hg : (parseGuide gc).global ≠ "")
    (hs : selectedCategoryBlock (parseGuide gc) kbm docId = some (c, t)) :
    getCorrectionsForDoc (some gc) kbm docId =
      some ("**Corrections (Global):**\n" ++ (parseGuide gc).global ++ "\n\n" ++
        ("**Corrections (" ++ c ++ "):**\n" ++ t)) := by
  simp [getCorrectionsForDoc, getGuide, hgc, hg, hs, joinWith]

theorem corrections_global_only (gc : String) (kbm : Option String) (docId : String)
    (hgc : gc ≠ "") (hg : (parseGuide gc).global ≠ "")
    (hs : selectedCategoryBlock (parseGuide gc) kbm docId = none) :
    getCorrectionsForDoc (some gc) kbm docId =
      some ("**Corrections (Global):**\n" ++ (parseGuide gc).global) := by
  simp [getCorrectionsForDoc, getGuide, hgc, hg, hs, joinWith]

theorem corrections_category_only (gc : String) (kbm : Option String) (docId c t : String)
    (hgc : gc ≠ "") (hg : (parseGuide gc).global = "")
    (hs : selectedCategoryBlock (parseGuide gc) kbm docId = some (c, t)) :
    getCorrectionsForDoc (some gc) kbm docId =
      some ("**Corrections (" ++ c ++ "):**\n" ++ t) := by
  simp [getCorrectionsForDoc, getGuide, hgc, hg, hs, joinWith]

theorem corrections_none_iff (gc : String) (kbm : Option String) (docId : String)
    (hgc : gc ≠ "") :
    getCorrectionsForDoc (some gc) kbm docId = none ↔
      ((parseGuide gc).global = "" ∧
        selectedCategoryBlock (parseGuide gc) kbm docId = none) := by
  by_cases hg : (parseGuide gc).global = ""
  · cases hs : selectedCategoryBlock (parseGuide gc) kbm docId with
    | none => simp [getCorrectionsForDoc, getGuide, hgc, hg, hs]
    | some ct => simp [getCorrectionsForDoc, getGuide, hgc, hg, hs]
  · cases hs : selectedCategoryBlock (parseGuide gc) kbm docId with
    | none => simp [getCorrectionsForDoc, getGuide, hgc, hg, hs]
    | some ct => simp [getCorrectionsForDoc, getGuide, hgc, hg, hs]

/-- C4 counterexample: document `D1` is catalogued under category "Finance"
and the overlay has a non-empty "Finance" block — the document's category
block exists — yet `getCorrectionsForDoc` returns null (there is no global
block and "Finance" has no role descriptor), refuting "the result is null
exactly when neither block applies". -/
theorem corrections_null_despite_category_block :
    getIndex (some "## Finance\n- **Budget** (id: `D1`, doc)") "D1" = some "Finance" ∧
    (parseGuide "## Finance\nCheck the numbers with accounting first.").categories "Finance"
      = some "Check the numbers with accounting first." ∧
    (parseGuide "## Finance\nCheck the numbers with accounting first.").global = "" ∧
    getCorrectionsForDoc (some "## Finance\nCheck the numbers with accounting first.")
      (some "## Finance\n- **Budget** (id: `D1`, doc)") "D1" = none := by
  refine ⟨by decide, by decide, by decide, by decide⟩

/-- C4 as amended: the category block is the one selected through the
document's resolved role (`getDocumentRole`), not through the catalog
category alone. With a non-empty overlay source: the global block, when
non-empty, is included for every document (regardless of catalog or
category); when both the global block and the role-selected category block
exist the result is both, global first, each under its label, joined by a
blank line; a single applicable block is returned alone under its label; and
the result is null exactly when the global block is empty and no
role-selected category block exists. An absent overlay source yields null for
every document. -/
theorem corrections_assembly (gc : String) (kbm : Option String) (docId : String)
    (hgc : gc ≠ "") :
    (∀ c t, (parseGuide gc).global ≠ "" →
      selectedCategoryBlock (parseGuide gc) kbm docId = some (c, t) →
      getCorrectionsForDoc (some gc) kbm docId =
        some ("**Corrections (Global):**\n" ++ (parseGuide gc).global ++ "\n\n" ++
          ("**Corrections (" ++ c ++ "):**\n" ++ t))) ∧
    ((parseGuide gc).global ≠ "" →
      selectedCategoryBlock (parseGuide gc) kbm docId = none →
      getCorrectionsForDoc (some gc) kbm docId =
        some ("**Corrections (Global):**\n" ++ (parseGuide gc).global)) ∧
    (∀ c t, (parseGuide gc).global = "" →
      selectedCategoryBlock (parseGuide gc) kbm docId = some (c, t) →
      getCorrectionsForDoc (some gc) kbm docId =
        some ("**Corrections (" ++ c ++ "):**\n" ++ t)) ∧
    (getCorrectionsForDoc (some gc) kbm docId = none ↔
      ((parseGuide gc).global = "" ∧
        selectedCategoryBlock (parseGuide gc) kbm docId = none)) ∧
    getCorrectionsForDoc none kbm docId = none := by
  refine ⟨?_, ?_, ?_, corrections_none_iff gc kbm docId hgc, rfl⟩
  · intro c t hg hs
    exact corrections_both gc kbm docId c t hgc hg hs
  · intro hg hs
    exact corrections_global_only gc kbm docId hgc hg hs
  · intro c t hg hs
    exact corrections_category_only gc kbm docId c t hgc hg hs

/-- Witness for the amended C4 at the spec's Clinical & Research scenario:
both blocks exist and the result is global first, category block second,
joined by a blank line. -/
theorem corrections_assembly_witness :
    getCorrectionsForDoc (some "## Global\nG text\n## Clinical & Research\nC text")
      (some "## Clinical & Research\n- x (id: `D`, doc)") "D" =
      some ("**Corrections (Global):**\n" ++
        (parseGuide "## Global\nG text\n## Clinical & Research\nC text").global ++ "\n\n" ++
        ("**Corrections (" ++ "Clinical & Research" ++ "):**\n" ++ "C text")) :=
  (corrections_assembly "## Global\nG text\n## Clinical & Research\nC text"
    (some "## Clinical & Research\n- x (id: `D`, doc)") "D" (by decide)).1
    "Clinical & Research" "C text" (by decide) (by decide)

/-- C5 counterexample: document `D2`'s catalog category "HR" equals the name
of a non-empty overlay section, yet `overlayFor` (`getCorrectionsForDoc`)
returns null, because the category is resolved through the role table and
"HR" has no configured role descriptor. -/
theorem overlay_misses_descriptorless_category :
    getIndex (some "## HR\n- **Handbook** (id: `D2`, doc)") "D2" = some "HR" ∧
    (parseGuide "## HR\nAlways use inclusive language.").categories "HR"
      = some "Always use inclusive language." ∧
    ROLE_LABELS "HR" = none ∧
    getCorrectionsForDoc (some "## HR\nAlways use inclusive language.")
      (some "## HR\n- **Handbook** (id: `D2`, doc)") "D2" = none := by
  refine ⟨by decide, by decide, by decide, by decide⟩

/-- C5 as amended: `overlayFor` resolves the document's category through the
Role Resolver, not the Category Index alone. For a document whose catalog
category names a non-empty overlay section, the category's correction block
is included when that category has a configured role descriptor; when it has
none, the result degrades to the global block alone (or null when the global
block is empty too). -/
theorem overlay_category_block_requires_role (gc : String) (kbm : Option String)
    (docId c t : String) (hgc : gc ≠ "") (hcat : getIndex kbm docId = some c)
    (ht : (parseGuide gc).categories c = some t) :
    ((ROLE_LABELS c).isSome →
      ∃ pre, getCorrectionsForDoc (some gc) kbm docId
        = some (pre ++ ("**Corrections (" ++ c ++ "):**\n" ++ t))) ∧
    (ROLE_LABELS c = none →
      getCorrectionsForDoc (some gc) kbm docId
        = if (parseGuide gc).global ≠ ""
          then some ("**Corrections (Global):**\n" ++ (parseGuide gc).global)
          else none) := by
  constructor
  · intro hrole
    have hc : c ≠ "" := by
      intro hce
      subst hce
      simp [ROLE_LABELS] at hrole
    obtain ⟨ri, hri⟩ := Option.isSome_iff_exists.mp hrole
    have hrd : getDocumentRole kbm docId = some ⟨c, ri.label, ri.instruction⟩ := by
      simp [getDocumentRole, hcat, hc, hri]
    have hs : selectedCategoryBlock (parseGuide gc) kbm docId = some (c, t) := by
      simp [selectedCategoryBlock, hrd, hc, ht]
    by_cases hg : (parseGuide gc).global = ""
    · exact ⟨"", by
        have := corrections_category_only gc kbm docId c t hgc hg hs
        simpa using this⟩
    · exact ⟨"**Corrections (Global):**\n" ++ (parseGuide gc).global ++ "\n\n",
        corrections_both gc kbm docId c t hgc hg hs⟩
  · intro hnone
    have hrd : getDocumentRole kbm docId = none := by
      by_cases hc : c = ""
      · simp [getDocumentRole, hcat, hc]
      · simp [getDocumentRole, hcat, hc, hnone]
    have hs : selectedCategoryBlock (parseGuide gc) kbm docId = none := by
      simp [selectedCategoryBlock, hrd]
    by_cases hg : (parseGuide gc).global = ""
    · simp [hg, (corrections_none_iff gc kbm docId hgc).mpr ⟨hg, hs⟩]
    · simp [hg, corrections_global_only gc kbm docId hgc hg hs]

/-- Witness for the amended C5: category "Product" has a role descriptor, so
its overlay block is surfaced; the HR example of the counterexample shows the
descriptorless degradation through the same theorem. -/
theorem overlay_category_block_requires_role_witness :
    (∃ pre, getCorrectionsForDoc (some "## Product\nUse exact SKUs.")
      (some "## Product\n- p (id: `P1`, doc)") "P1"
        = some (pre ++ ("**Corrections (" ++ "Product" ++ "):**\n" ++ "Use exact SKUs."))) ∧
    getCorrectionsForDoc (some "## HR\nAlways use inclusive language.")
      (some "## HR\n- **Handbook** (id: `D2`, doc)") "D2"
        = if (parseGuide "## HR\nAlways use inclusive language.").global ≠ ""
          then some ("**Corrections (Global):**\n" ++
            (parseGuide "## HR\nAlways use inclusive language.").global)
          else none :=
  ⟨(overlay_category_block_requires_role "## Product\nUse exact SKUs."
      (some "## Product\n- p (id: `P1`, doc)") "P1" "Product" "Use exact SKUs."
      (by decide) (by decide) (by decide)).1 (by decide),
   (overlay_category_block_requires_role "## HR\nAlways use inclusive language."
      (some "## HR\n- **Handbook** (id: `D2`, doc)") "D2" "HR" "Always use inclusive language."
      (by decide) (by decide) (by decide)).2 (by decide)⟩

/-- Concrete fetch oracle for which every document fetch rejects. -/
def failFetchW : String → Except String ReadDocResult := fun _ => .error "offline"

theorem append_read_doc_ne_empty (a b : String) : a ++ "read_doc" ++ b ≠ "" := by
  intro h
  have h2 := congrArg String.data h
  simp only [String.data_append] at h2
  rcases List.append_eq_nil.mp h2 with ⟨h3, -⟩
  rcases List.append_eq_nil.mp h3 with ⟨-, h4⟩
  have h5 : "read_doc".data = [] := h4
  simp at h5

theorem preloadAgg_all_fail (toLocale : String → String) (kbm : Option String)
    (fetch : String → Except String ReadDocResult) (ids : List String)
    (h : ∀ i ∈ ids, ∃ msg, fetch i = .error msg) :
    (preloadAgg toLocale kbm fetch ids).1 = [] := by
  induction ids with
  | nil => rfl
  | cons i rest ih =>
    obtain ⟨msg, hm⟩ := h i (List.mem_cons_self i rest)
    have hrest : ∀ x ∈ rest, ∃ msg, fetch x = .error msg :=
      fun x hx => h x (List.mem_cons_of_mem i hx)
    simp [preloadAgg, hm, ih hrest]

theorem marketingAgentText_of_empty_preload (toLocale : String → String)
    (kbm : Option String) (task : Option String)
    (drive : Except String (String → Except String ReadDocResult))
    (h : (preloadDocs toLocale kbm drive CRITICAL_MARKETING_DOCS).1 = "") :
    marketingAgentText toLocale kbm drive task =
      marketingTextA ++ marketingFallbackSection ++ marketingTextB ++
        taskOrDefault task ++ marketingTextC := by
  simp [marketingAgentText, marketingPreloadedSection, h]

theorem marketing_fallback_decomposition (t : String) :
    ∃ a b, marketingTextA ++ marketingFallbackSection ++ marketingTextB ++ t ++
      marketingTextC = a ++ "read_doc" ++ b := by
  refine ⟨marketingTextA ++
    "## Load Brand Guidelines\n\nPre-loading failed. Use `get_kb_map` to see available documents, then load these with `",
    "`:\n1. **Brand Positioning** — core brand voice and differentiators\n2. **Writing Guidelines** — tone, style, and copy standards\n3. **Quick Claims Reference** — approved product/health claims\n" ++
      marketingTextB ++ t ++ marketingTextC, ?_⟩
  have hfb : marketingFallbackSection =
    "## Load Brand Guidelines\n\nPre-loading failed. Use `get_kb_map` to see available documents, then load these with `" ++
      "read_doc" ++
      "`:\n1. **Brand Positioning** — core brand voice and differentiators\n2. **Writing Guidelines** — tone, style, and copy standards\n3. **Quick Claims Reference** — approved product/health claims\n" := rfl
  rw [hfb]
  simp only [String.append_assoc]

/-- C6: when preloading fails entirely — the backend client cannot be created
or every critical-document fetch rejects — the marketing workflow still
returns a non-empty instructional payload containing the `read_doc`
loading instruction for the same documents, and, being a total function of
the preload outcome, does not throw. -/
theorem marketing_degrades_gracefully (toLocale : String → String)
    (kbm : Option String) (task : Option String) :
    (∀ e, marketingAgentText toLocale kbm (.error e) task ≠ "" ∧
      ∃ a b, marketingAgentText toLocale kbm (.error e) task = a ++ "read_doc" ++ b) ∧
    (∀ fetch : String → Except String ReadDocResult,
      (∀ i ∈ CRITICAL_MARKETING_DOCS, ∃ msg, fetch i = .error msg) →
      marketingAgentText toLocale kbm (.ok fetch) task ≠ "" ∧
      ∃ a b, marketingAgentText toLocale kbm (.ok fetch) task = a ++ "read_doc" ++ b) := by
  constructor
  · intro e
    have h0 : (preloadDocs toLocale kbm (.error e) CRITICAL_MARKETING_DOCS).1 = "" := rfl
    have hp := marketingAgentText_of_empty_preload toLocale kbm task (.error e) h0
    obtain ⟨a, b, heq⟩ := marketing_fallback_decomposition (taskOrDefault task)
    rw [hp]
    exact ⟨heq ▸ append_read_doc_ne_empty a b, a, b, heq⟩
  · intro fetch hfail
    have h0 : (preloadDocs toLocale kbm (.ok fetch) CRITICAL_MARKETING_DOCS).1 = "" := by
      have := preloadAgg_all_fail toLocale kbm fetch CRITICAL_MARKETING_DOCS hfail
      simp [preloadDocs, this, joinWith]
    have hp := marketingAgentText_of_empty_preload toLocale kbm task (.ok fetch) h0
    obtain ⟨a, b, heq⟩ := marketing_fallback_decomposition (taskOrDefault task)
    rw [hp]
    exact ⟨heq ▸ append_read_doc_ne_empty a b, a, b, heq⟩

/-- Witness for C6 at a fully-failing backend: the client-creation failure
and the all-fetches-reject failure both yield a non-empty payload containing
the `read_doc` instruction. -/
theorem marketing_degrades_gracefully_witness :
    (marketingAgentText id none (.error "connect ECONNREFUSED") none ≠ "" ∧
      ∃ a b, marketingAgentText id none (.error "connect ECONNREFUSED") none
        = a ++ "read_doc" ++ b) ∧
    (marketingAgentText id none (.ok failFetchW) none ≠ "" ∧
      ∃ a b, marketingAgentText id none (.ok failFetchW) none = a ++ "read_doc" ++ b) :=
  ⟨(marketing_degrades_gracefully id none none).1 "connect ECONNREFUSED",
   (marketing_degrades_gracefully id none none).2 failFetchW
     (fun _ _ => ⟨"offline", rfl⟩)⟩

theorem takeWhile_ne_append (lab rest : List Char) (h : ∀ c ∈ lab, c ≠ ']') :
    (lab ++ ']' :: rest).takeWhile notRB = lab := by
  induction lab with
  | nil => simp [List.takeWhile_cons, notRB]
  | cons c l ih =>
    have hc : notRB c = true := by
      simp [notRB, h c (List.mem_cons_self c l)]
    have hl : ∀ x ∈ l, x ≠ ']' := fun x hx => h x (List.mem_cons_of_mem c hx)
    simp [List.takeWhile_cons, hc, ih hl]

theorem extractLabel_heading (lab rest : String) (h : ∀ c ∈ lab.data, c ≠ ']') :
    extractLabel ("# [" ++ (lab ++ ("] " ++ rest))) = some lab := by
  have hd : ("# [" ++ (lab ++ ("] " ++ rest))).data
      = '#' :: ' ' :: '[' :: (lab.data ++ (']' :: ' ' :: rest.data)) := by
    simp only [String.data_append]
    rfl
  rw [extractLabel, hd]
  have hany : (lab.data ++ (']' :: ' ' :: rest.data)).any isRB = true := by
    simp [List.any_append, isRB]
  have ht : (lab.data ++ (']' :: ' ' :: rest.data)).takeWhile notRB
      = lab.data := takeWhile_ne_append lab.data (' ' :: rest.data) h
  simp [hany, ht]

theorem joinWith_three_tail (l : List String) (x : String) (h : l ≠ []) :
    ∃ pre, joinWith "\n" (l ++ ["---", "", x]) = (pre ++ "\n---\n\n") ++ x := by
  induction l with
  | nil => exact absurd rfl h
  | cons a t ih =>
    cases t with
    | nil =>
      refine ⟨a, ?_⟩
      show a ++ "\n" ++ joinWith "\n" ["---", "", x] = _
      rw [show ("\n---\n\n" : String) = "\n" ++ ("---" ++ ("\n" ++ "\n")) from rfl]
      show a ++ "\n" ++ ("---" ++ "\n" ++ ("" ++ "\n" ++ x)) = _
      rw [show ("" : String) ++ "\n" = "\n" from rfl]
      simp only [String.append_assoc]
    | cons b t' =>
      obtain ⟨pre, hp⟩ := ih (by simp)
      refine ⟨(a ++ "\n") ++ pre, ?_⟩
      show a ++ "\n" ++ joinWith "\n" ((b :: t') ++ ["---", "", x]) = _
      rw [hp]
      simp only [String.append_assoc]

theorem formatDocContent_content_suffix (toLocale : String → String) (r : ReadDocResult)
    (role : Option DocumentRole) :
    ∃ pre, formatDocContent toLocale r role = (pre ++ "\n---\n\n") ++ r.content := by
  cases role with
  | some ro =>
    cases hm : r.metadata.lastModifyingUser with
    | some u =>
      by_cases hu : u ≠ ""
      · have := joinWith_three_tail
          ["# [" ++ ro.label ++ "] " ++ r.name, "", "> **" ++ ro.instruction ++ "**",
           "", "**Type:** " ++ r.fileType,
           "**Last Modified:** " ++ toLocale r.metadata.modifiedTime,
           "**Modified By:** " ++ u,
           "**[Open in Drive](" ++ r.metadata.webViewLink ++ ")**", ""]
          r.content (by simp)
        simpa [formatDocContent, hm, hu] using this
      · have := joinWith_three_tail
          ["# [" ++ ro.label ++ "] " ++ r.name, "", "> **" ++ ro.instruction ++ "**",
           "", "**Type:** " ++ r.fileType,
           "**Last Modified:** " ++ toLocale r.metadata.modifiedTime,
           "**[Open in Drive](" ++ r.metadata.webViewLink ++ ")**", ""]
          r.content (by simp)
        simpa [formatDocContent, hm, hu] using this
    | none =>
      have := joinWith_three_tail
        ["# [" ++ ro.label ++ "] " ++ r.name, "", "> **" ++ ro.instruction ++ "**",
         "", "**Type:** " ++ r.fileType,
         "**Last Modified:** " ++ toLocale r.metadata.modifiedTime,
         "**[Open in Drive](" ++ r.metadata.webViewLink ++ ")**", ""]
        r.content (by simp)
      simpa [formatDocContent, hm] using this
  | none =>
    cases hm : r.metadata.lastModifyingUser with
    | some u =>
      by_cases hu : u ≠ ""
      · have := joinWith_three_tail
          ["# " ++ r.name, "", "**Type:** " ++ r.fileType,
           "**Last Modified:** " ++ toLocale r.metadata.modifiedTime,
           "**Modified By:** " ++ u,
           "**[Open in Drive](" ++ r.metadata.webViewLink ++ ")**", ""]
          r.content (by simp)
        simpa [formatDocContent, hm, hu] using this
      · have := joinWith_three_tail
          ["# " ++ r.name, "", "**Type:** " ++ r.fileType,
           "**Last Modified:** " ++ toLocale r.metadata.modifiedTime,
           "**[Open in Drive](" ++ r.metadata.webViewLink ++ ")**", ""]
          r.content (by simp)
        simpa [formatDocContent, hm, hu] using this
    | none =>
      have := joinWith_three_tail
        ["# " ++ r.name, "", "**Type:** " ++ r.fileType,
         "**Last Modified:** " ++ toLocale r.metadata.modifiedTime,
         "**[Open in Drive](" ++ r.metadata.webViewLink ++ ")**", ""]
        r.content (by simp)
      simpa [formatDocContent, hm] using this

/-- C8: for every fetched document and every role descriptor of the fixed
role table, `formatDocContent` embeds the label and instruction unmutated:
re-parsing the visible `[LABEL]` from the emitted heading recovers the label
string exactly, and the rendered content appears verbatim after the
`\n---\n\n` separator, as the final segment of the output. -/
theorem formatDocContent_roundtrip (toLocale : String → String) (r : ReadDocResult)
    (ro : DocumentRole)
    (hrole : ROLE_LABELS ro.category = some ⟨ro.label, ro.instruction⟩) :
    extractLabel (formatDocContent toLocale r (some ro)) = some ro.label ∧
    (∃ pre, formatDocContent toLocale r (some ro) = (pre ++ "\n---\n\n") ++ r.content) := by
  have hlab : ∀ c ∈ ro.label.data, c ≠ ']' := by
    simp only [ROLE_LABELS] at hrole
    split_ifs at hrole
    all_goals
      injection hrole with h2
      injection h2 with hL hI
      rw [← hL]
      decide
  constructor
  · obtain ⟨rest, hf⟩ :
        ∃ rest, formatDocContent toLocale r (some ro)
          = "# [" ++ (ro.label ++ ("] " ++ rest)) := by
      have hun : formatDocContent toLocale r (some ro)
          = ("# [" ++ ro.label ++ "] " ++ r.name) ++ "\n" ++ joinWith "\n"
            ("" :: ("> **" ++ ro.instruction ++ "**") ::
              (["", "**Type:** " ++ r.fileType,
                "**Last Modified:** " ++ toLocale r.metadata.modifiedTime] ++
                ((match r.metadata.lastModifyingUser with
                  | some u => if u ≠ "" then ["**Modified By:** " ++ u] else []
                  | none => []) ++
                  ["**[Open in Drive](" ++ r.metadata.webViewLink ++ ")**", "", "---", "",
                   r.content]))) := rfl
      refine ⟨r.name ++ ("\n" ++ joinWith "\n"
        ("" :: ("> **" ++ ro.instruction ++ "**") ::
          (["", "**Type:** " ++ r.fileType,
            "**Last Modified:** " ++ toLocale r.metadata.modifiedTime] ++
            ((match r.metadata.lastModifyingUser with
              | some u => if u ≠ "" then ["**Modified By:** " ++ u] else []
              | none => []) ++
              ["**[Open in Drive](" ++ r.metadata.webViewLink ++ ")**", "", "---", "",
               r.content])))), ?_⟩
      rw [hun]
      simp only [String.append_assoc]
    rw [hf]
    exact extractLabel_heading ro.label _ hlab
  · exact formatDocContent_content_suffix toLocale r (some ro)

/-- Witness for C8 at the concrete document `docW` and the Brand & Marketing
role descriptor. -/
theorem formatDocContent_roundtrip_witness :
    extractLabel (formatDocContent id docW
      (some ⟨"Brand & Marketing", "MANDATORY CONSTRAINTS",
        "You MUST follow every rule in this document. These are brand standards, not suggestions."⟩))
      = some "MANDATORY CONSTRAINTS" ∧
    (∃ pre, formatDocContent id docW
      (some ⟨"Brand & Marketing", "MANDATORY CONSTRAINTS",
        "You MUST follow every rule in this document. These are brand standards, not suggestions."⟩)
      = (pre ++ "\n---\n\n") ++ docW.content) :=
  formatDocContent_roundtrip id docW
    ⟨"Brand & Marketing", "MANDATORY CONSTRAINTS",
      "You MUST follow every rule in this document. These are brand standards, not suggestions."⟩
    (by decide)

/-- Concrete backend file for the search evaluation. -/
def fileW : DriveFile :=
  ⟨"f1", "File", "application/pdf", "2024-01-01T00:00:00Z", some "link", none, []⟩

/-- Concrete `drive.files.list` oracle: returns 60 files when asked for a
page of 100, nothing otherwise — so the returned result count reveals the
pageSize that was forwarded. -/
def listFW : String → Int → List DriveFile :=
  fun _ ps => if ps = 100 then List.replicate 60 fileW else []

/-- Concrete path oracle. -/
def getPathW : String → Option String → String := fun _ _ => "/"

/-- The result row `searchDocs` produces for `fileW`. -/
def rowW : SearchDocsRow :=
  ⟨"f1", "File", "PDF", "application/pdf", "2024-01-01T00:00:00Z", "/", "link"⟩

/-- C9 evaluated at the failing input: a caller-supplied `max_results` of 100
is forwarded to the backend unchanged (`pageSize = 100`, greater than the
documented maximum of 50), and the 60 files the backend returns are all
handed back to the caller — the operation caps nothing at 50. -/
theorem searchDocs_forwards_over_cap_max_results :
    searchDocsMaxResults 10 ⟨"hip", none, none, some 100⟩ = 100 ∧
    ¬ (searchDocsMaxResults 10 ⟨"hip", none, none, some 100⟩ ≤ 50) ∧
    ∃ res, searchDocs getPathW listFW 10 ⟨"hip", none, none, some 100⟩ = .ok res ∧
      res.results.length = 60 ∧ ¬ res.results.length ≤ 50 := by
  refine ⟨by decide, by decide, ?_⟩
  refine ⟨⟨List.replicate 60 rowW, 60, "hip"⟩, rfl, by decide, by decide⟩

/-- Concrete folder metadata for the read-doc evaluation. -/
def folderMetaW : RawMeta :=
  ⟨some "fid", some "Archive", some "application/vnd.google-apps.folder",
   none, none, none, none, none⟩

/-- Concrete Drive backend whose metadata lookup always yields the folder. -/
def backendW : DriveBackend :=
  ⟨fun _ => .ok folderMetaW, fun _ _ => .ok "x", fun c _ _ => .ok c⟩

/-- C10: `readDoc` throws `Document ID is required` before any backend call
for an empty or whitespace-only id (empty trace), and rejects a folder target
with an error naming the folder and directing the caller to `list_folder`
instead of returning content. -/
theorem readDoc_rejects_folders_and_blank_ids (b : DriveBackend)
    (defaultFormat doc_id : String) (fmt : Option String) :
    (trimS doc_id = "" →
      readDocT b defaultFormat doc_id fmt = (.error "Document ID is required", [])) ∧
    (∀ meta, b.getMeta doc_id = .ok meta → doc_id ≠ "" → trimS doc_id ≠ "" →
      blank meta.id = false → blank meta.name = false → blank meta.mimeType = false →
      meta.mimeType = some folderMime →
      readDoc b defaultFormat doc_id fmt =
        .error ("\"" ++ meta.name.getD "" ++
          "\" is a folder, not a document. Use list_folder to browse its contents.")) := by
  constructor
  · intro h
    simp [readDocT, h]
  · intro meta hm h1 h2 hb1 hb2 hb3 hmime
    simp [readDoc, readDocT, h1, h2, hm, hb1, hb2, hb3, hmime,
      show blank (some folderMime) = false from by decide]

/-- Witness for C10: a whitespace-only id is rejected with no backend call,
and the concrete folder `Archive` is rejected with the list_folder
redirect. -/
theorem readDoc_rejects_folders_and_blank_ids_witness :
    readDocT backendW "markdown" "   " none = (.error "Document ID is required", []) ∧
    readDoc backendW "markdown" "fid" none =
      .error ("\"" ++ folderMetaW.name.getD "" ++
        "\" is a folder, not a document. Use list_folder to browse its contents.") :=
  ⟨(readDoc_rejects_folders_and_blank_ids backendW "markdown" "   " none).1 (by decide),
   (readDoc_rejects_folders_and_blank_ids backendW "markdown" "fid" none).2 folderMetaW
     rfl (by decide) (by decide) (by decide) (by decide) (by decide) rfl⟩

end Aletha
